import Mathlib

/-!
Shallow embedding of the session-reconciliation and schema-migration engine of the
Automated Verbal Assessment System backend.

Embedded source files:
  backend/firebase_config.py      (nested schema: `store_assessment_result`,
                                   `convert_firestore_datetime`, the inline session locator)
  backend/firebase_config_new.py  (flattened schema: `store_assessment_item`,
                                   `get_assessment_items`, `get_assessment_summary`,
                                   `derive_question_index`, `to_num`)
  backend/migrate_data.py         (`migrate_data`, batch commits)

Modelling conventions:
  - Python numbers are modelled as ℚ (all score arithmetic in the source is exact on the
    inputs the claims mention); Python dicts of scores as association lists
    `List (String × ℚ)` in insertion order; Firestore collections as association lists
    `List (String × Doc)` in enumeration order.
  - `firestore.SERVER_TIMESTAMP` is an opaque sentinel: timestamps are `TimeVal`, either a
    client-supplied string or the server sentinel.  Python truthiness on strings
    (`start_time or SERVER_TIMESTAMP`, `if not user_id`) is reproduced exactly: the empty
    string counts as falsy.
  - Fields of the stored documents that no embedded function ever reads back
    (`created_at`, `last_updated`, the verbatim `speechsuper_response` payload, the
    per-question `timestamp`, word/phoneme analysis, provenance ids, metadata) are omitted
    from the document structures; every field that any embedded function reads or that a
    claim mentions is carried.
  - Exceptions caught by the top-level `try/except` of `store_assessment_result`
    (`int(question_id.replace('q', ''))` raising `ValueError`) make the function return
    `False`; this is the `.failed` outcome.  The parse happens before any session-document
    write in every branch, so it is modelled as a guard.
-/

namespace AVAS

/-! ### Python values and `convert_firestore_datetime` (firebase_config.py lines 10-26) -/

/-- A Python value as processed by `convert_firestore_datetime`: datetime-like objects
(anything with an `isoformat` attribute, converted to the ISO string it returns),
strings, numbers, `None`, dictionaries and lists. -/
inductive PyVal where
  | dt (iso : String)
  | str (s : String)
  | num (q : ℚ)
  | pynull
  | dict (entries : List (String × PyVal))
  | list (elems : List PyVal)

mutual

/-- `convert_firestore_datetime` (firebase_config.py lines 10-26): datetime-like values
become their ISO string, dictionaries and lists are processed recursively, everything
else is returned as-is. -/
def convert_firestore_datetime : PyVal → PyVal
  | .dt iso => .str iso
  | .dict es => .dict (convert_fd_entries es)
  | .list xs => .list (convert_fd_elems xs)
  | .str s => .str s
  | .num q => .num q
  | .pynull => .pynull

/-- Dictionary-value recursion of `convert_firestore_datetime`. -/
def convert_fd_entries : List (String × PyVal) → List (String × PyVal)
  | [] => []
  | (k, v) :: rest => (k, convert_firestore_datetime v) :: convert_fd_entries rest

/-- List-element recursion of `convert_firestore_datetime`. -/
def convert_fd_elems : List PyVal → List PyVal
  | [] => []
  | v :: rest => convert_firestore_datetime v :: convert_fd_elems rest

end

mutual

/-- Whether a value (recursively) contains anything with an `isoformat` attribute. -/
def contains_isoformat : PyVal → Bool
  | .dt _ => true
  | .dict es => contains_isoformat_entries es
  | .list xs => contains_isoformat_elems xs
  | _ => false

/-- Dictionary-value recursion of `contains_isoformat`. -/
def contains_isoformat_entries : List (String × PyVal) → Bool
  | [] => false
  | (_, v) :: rest => contains_isoformat v || contains_isoformat_entries rest

/-- List-element recursion of `contains_isoformat`. -/
def contains_isoformat_elems : List PyVal → Bool
  | [] => false
  | v :: rest => contains_isoformat v || contains_isoformat_elems rest

end

/-! ### Nested schema: documents and the session upsert (firebase_config.py) -/

/-- A timestamp value as stored: either a caller-supplied string or the opaque
`firestore.SERVER_TIMESTAMP` sentinel. -/
inductive TimeVal where
  | client (s : String)
  | server
  deriving DecidableEq

/-- Python `x or firestore.SERVER_TIMESTAMP` on an optional string parameter:
`None` and the empty string are falsy and fall through to the server sentinel. -/
def orServer : Option String → TimeVal
  | some s => if s = "" then TimeVal.server else TimeVal.client s
  | none => TimeVal.server

/-- Python `d.get(key, default)` on a dictionary of numbers. -/
def dget (m : List (String × ℚ)) (k : String) (dflt : ℚ) : ℚ :=
  match m.find? (fun p => p.1 == k) with
  | some p => p.2
  | none => dflt

/-- Python `d.get(key)` on a dictionary of numbers (`None` when the key is absent). -/
def dgetOpt (m : List (String × ℚ)) (k : String) : Option ℚ :=
  (m.find? (fun p => p.1 == k)).map (fun p => p.2)

/-- One entry of a session document's `question_results` mapping
(firebase_config.py lines 246-251): the writer stores `completed`, the `scores`
dictionary and `duration` (the `timestamp` field is an opaque server value never
read back and is omitted). -/
structure QEntry where
  completed : Bool
  scores : List (String × ℚ)
  duration : ℚ
  deriving DecidableEq

/-- Python dictionary assignment `question_results[question_id] = entry`: an existing
key keeps its position and gets the new value, a new key is appended. -/
def dictInsert (k : String) (v : QEntry) (m : List (String × QEntry)) : List (String × QEntry) :=
  if m.any (fun p => p.1 == k) then m.map (fun p => if p.1 = k then (k, v) else p)
  else m ++ [(k, v)]

/-- A session ("assessment") document of the nested schema.  Fields the code reads or a
claim mentions; `created_at`, `last_updated` and the redundant `assessment_id` copy are
write-only in the source and omitted.  Optional fields model key presence in the
Firestore document. -/
structure AssessmentDoc where
  user_id : String
  status : Option String := none
  total_questions : Option Nat := none
  completed_questions : Option Nat := none
  progress_percentage : Option ℚ := none
  overall_score : Option ℚ := none
  assessment_start_time : Option TimeVal := none
  assessment_end_time : Option TimeVal := none
  question_results : List (String × QEntry) := []
  deriving DecidableEq

/-- The `assessments` collection: document id to document, in enumeration order. -/
abbrev Store := List (String × AssessmentDoc)

/-- Firestore document get by id. -/
def storeGet (st : Store) (i : String) : Option AssessmentDoc :=
  (st.find? (fun p => p.1 == i)).map (fun p => p.2)

/-- Firestore document update/set at an existing id (in place). -/
def storeSet (st : Store) (i : String) (d : AssessmentDoc) : Store :=
  st.map (fun p => if p.1 = i then (i, d) else p)

/-- The `where("user_id", "==", user_id)` stream (firebase_config.py line 140). -/
def userAssessments (st : Store) (user_id : String) : Store :=
  st.filter (fun p => p.2.user_id == user_id)

/-- Whether a session is fully completed (firebase_config.py line 155):
`status == "completed" and completed_questions >= 3`, where `completed_questions`
defaults to 0 when absent. -/
def isFullyCompleted (d : AssessmentDoc) : Bool :=
  d.status == some "completed" && decide (3 ≤ d.completed_questions.getD 0)

/-- The Session Locator (firebase_config.py lines 139-162, the
`existing_assessment` scan): the first of the user's sessions that is not fully
completed, else `none`. -/
def find_existing_assessment (st : Store) (user_id : String) :
    Option (String × AssessmentDoc) :=
  (userAssessments st user_id).find? (fun p => !isFullyCompleted p.2)

/-- Python `int(str)` on an all-digit character list: `none` (a `ValueError`) when
empty or containing a non-digit. -/
def parseNatDigits (cs : List Char) : Option Nat :=
  if cs ≠ [] ∧ cs.all Char.isDigit then
    some (cs.foldl (fun acc c => acc * 10 + (c.toNat - 48)) 0)
  else none

/-- Python `int(str)` on a possibly-sign-prefixed digit string; `none` models the
`ValueError` on anything else.  (Python's extra tolerance for whitespace, `+` and
underscores is outside the model.) -/
def pyIntChars (cs : List Char) : Option Int :=
  match cs with
  | '-' :: rest => (parseNatDigits rest).map (fun n => -(n : Int))
  | _ => (parseNatDigits cs).map (fun n => (n : Int))

/-- `question_num` (firebase_config.py line 237):
`int(question_id.replace('q', '')) if question_id.startswith('q') else 1`.
`replace` removes every `'q'`; `int()` raising `ValueError` (empty or non-integer
remainder) is `none`. -/
def questionNum (question_id : String) : Option Int :=
  match question_id.toList with
  | 'q' :: _ => pyIntChars (question_id.toList.filter (fun c => c != 'q'))
  | _ => some 1

/-- The identifier minted when no open session is found
(firebase_config.py line 173): `f"{user_id}_{int(time.time())}"`. -/
def mintedId (user_id : String) (now : Nat) : String :=
  user_id ++ "_" ++ toString now

/-- The update applied to an already-existing session document
(firebase_config.py lines 241-328, identical in the `existing_assessment` branch and
the `assessment_doc.exists` fallback): overwrite the `question_id` entry, recount
completed questions, recompute the aggregate, always force `status = "completed"`,
set `overall_score` and `assessment_end_time` only when the count reaches 3, and set
`assessment_start_time` only for question number 1 when the key is absent. -/
def updateDoc (cur : AssessmentDoc) (question_id : String) (scores : List (String × ℚ))
    (duration : ℚ) (start_time end_time : Option String) (qnum : Int) : AssessmentDoc :=
  let qr := dictInsert question_id ⟨true, scores, duration⟩ cur.question_results
  let completed := (qr.filter (fun p => p.2.completed)).length
  let overall : Option ℚ :=
    if completed = 3 then some (((qr.map (fun p => dget p.2.scores "overall" 0)).sum) / 3)
    else none
  { cur with
    question_results := qr
    completed_questions := some completed
    progress_percentage := some ((completed : ℚ) / 3 * 100)
    status := some "completed"
    overall_score := match overall with
      | some v => some v
      | none => cur.overall_score
    assessment_end_time := match overall with
      | some _ => some (orServer end_time)
      | none => cur.assessment_end_time
    assessment_start_time :=
      if qnum = 1 ∧ cur.assessment_start_time = none then some (orServer start_time)
      else cur.assessment_start_time }

/-- The brand-new session document (firebase_config.py lines 333-357): one completed
entry, `status = "completed"`, and — when the question number is 3 — `overall_score`
taken from this single submission's scores and `assessment_end_time` set. -/
def newDoc (user_id question_id : String) (scores : List (String × ℚ)) (duration : ℚ)
    (start_time end_time : Option String) (qnum : Int) : AssessmentDoc :=
  let base : AssessmentDoc :=
    { user_id := user_id
      status := some "completed"
      total_questions := some 3
      completed_questions := some 1
      progress_percentage := some ((1 : ℚ) / 3 * 100)
      overall_score := none
      assessment_start_time := some (orServer start_time)
      assessment_end_time := none
      question_results := [(question_id, ⟨true, scores, duration⟩)] }
  if qnum = 3 then
    { base with
      overall_score := some (dget scores "overall" 0)
      assessment_end_time := some (orServer end_time)
      status := some "completed" }
  else base

/-- Outcome of a storage operation: the returned assessment id, or Python `False`
(the value returned when the `try/except` catches an exception). -/
inductive StoreOutcome where
  | ok (assessment_id : String)
  | failed
  deriving DecidableEq

/-- `store_assessment_result` (firebase_config.py lines 99-366), the Session Upsert of
the nested schema.  With the backing store unavailable it returns the caller-supplied
`assessment_id` and writes nothing (lines 116-122).  Otherwise it ignores the caller
hint: it targets the Locator's session when one exists, else mints
`"{user_id}_{unix_timestamp}"`; if a document already exists under the minted id it
updates that document (the `assessment_doc.exists` fallback, lines 285-328), else it
creates a fresh one (lines 330-359).  A `ValueError` from the question-number parse is
caught by the top-level handler and yields `False`; it happens before any
session-document write.  (The per-question `results` subcollection write at line 222 is
not threaded through this state; the subcollection is modelled separately as the
migrator's input.) -/
def store_assessment_result (dbAvailable : Bool) (st : Store)
    (user_id assessment_id question_id : String) (scores : List (String × ℚ))
    (duration : ℚ) (start_time end_time : Option String) (now : Nat) :
    StoreOutcome × Store :=
  if dbAvailable = false then (StoreOutcome.ok assessment_id, st)
  else
    match questionNum question_id, find_existing_assessment st user_id with
    | none, _ => (StoreOutcome.failed, st)
    | some qnum, some (eid, edata) =>
        (StoreOutcome.ok eid,
         storeSet st eid (updateDoc edata question_id scores duration start_time end_time qnum))
    | some qnum, none =>
        match storeGet st (mintedId user_id now) with
        | some d =>
            (StoreOutcome.ok (mintedId user_id now),
             storeSet st (mintedId user_id now)
               (updateDoc d question_id scores duration start_time end_time qnum))
        | none =>
            (StoreOutcome.ok (mintedId user_id now),
             st ++ [(mintedId user_id now,
                     newDoc user_id question_id scores duration start_time end_time qnum)])

/-! ### Flattened schema (firebase_config_new.py) and migration (migrate_data.py) -/

/-- `derive_question_index` (firebase_config_new.py line 36, migrate_data.py line 33):
`int(qid[1:]) if qid and qid.startswith('q') and qid[1:].isdigit() else None` —
`isdigit` demands a non-empty all-digit remainder. -/
def derive_question_index (qid : String) : Option Int :=
  match qid.toList with
  | 'q' :: rest =>
      if rest ≠ [] ∧ rest.all Char.isDigit then (parseNatDigits rest).map (fun n => (n : Int))
      else none
  | _ => none

/-- `to_num(x, default)` (firebase_config_new.py line 29, migrate_data.py line 26):
`float(x)` with the default on failure.  On the numeric-or-absent values in scope this
is the value when present, the default when absent. -/
def to_num (x : Option ℚ) (dflt : Option ℚ) : Option ℚ :=
  match x with
  | some v => some v
  | none => dflt

/-- One record of the flattened `assessment_items` collection.  Fields any embedded
function reads back or a claim mentions; the copied-through payload fields
(`transcription`, `duration_seconds`, the four other metrics, `speed_wpm`,
`pause_count`, `rear_tone`, provenance ids, the verbatim `speechsuper_response`,
`dt_last_response_raw`, `created_at`, `metadata`) are carried by no claim and are
omitted. -/
structure FlatItem where
  user_id : String
  assessment_id : String
  question_id : String
  question_index : Option Int
  overall : Option ℚ
  start_time : Option String
  end_time : Option String
  deriving DecidableEq

/-- The auto-generated id of `collection("assessment_items").add(doc)`: Firestore draws
a fresh random id; it is modelled by the position at which the record is appended
(the claims never inspect it). -/
def autoId (items : List FlatItem) : String :=
  "auto_" ++ toString items.length

/-- `store_assessment_item` (firebase_config_new.py lines 111-187), the flattened-schema
item store.  It always calls `collection("assessment_items").add(doc)`: every call
appends a brand-new record; nothing is keyed by `question_id`.  The denormalized
`overall` metric is `to_num(r.get("overall", scores.get("overall")))` — the raw
upstream `result` value when its key is present, else the `scores` value.  (The source
lines 156-160 are missing one closing parenthesis each — a syntax slip; the model reads
them as the evident intent.)  With the store unavailable it returns the caller's
`assessment_id` and writes nothing. -/
def store_assessment_item (dbAvailable : Bool) (items : List FlatItem)
    (user_id assessment_id question_id : String) (ss_result : List (String × ℚ))
    (scores : List (String × ℚ)) (start_time end_time : Option String) :
    StoreOutcome × List FlatItem :=
  if dbAvailable = false then (StoreOutcome.ok assessment_id, items)
  else
    let doc : FlatItem :=
      { user_id := user_id
        assessment_id := assessment_id
        question_id := question_id
        question_index := derive_question_index question_id
        overall := to_num
          (match dgetOpt ss_result "overall" with
           | some v => some v
           | none => dgetOpt scores "overall") none
        start_time := start_time
        end_time := end_time }
    (StoreOutcome.ok (autoId items), items ++ [doc])

/-- `get_assessment_items` (firebase_config_new.py lines 190-240) with an
`assessment_id` given: the records matching both ids.  (The source additionally orders
by `created_at` descending; every aggregate computed from the result is
order-insensitive, so the order is modelled as the stored order.) -/
def get_assessment_items (items : List FlatItem) (user_id assessment_id : String) :
    List FlatItem :=
  items.filter (fun it => it.user_id == user_id && it.assessment_id == assessment_id)

/-- Python `min(l)` on strings (lexicographic); `none` for the empty list. -/
def pyMinString (l : List String) : Option String :=
  match l with
  | [] => none
  | x :: xs => some (xs.foldl min x)

/-- Python `max(l)` on strings (lexicographic); `none` for the empty list. -/
def pyMaxString (l : List String) : Option String :=
  match l with
  | [] => none
  | x :: xs => some (xs.foldl max x)

/-- Python truthiness filter `[x for x in ... if x]` on optional strings: present and
non-empty. -/
def truthyStr : Option String → Option String
  | some s => if s = "" then none else some s
  | none => none

/-- The summary returned by `get_assessment_summary`. -/
structure AssessmentSummary where
  assessment_id : String
  user_id : String
  total_questions : Nat
  completed_questions : Nat
  overall_score : Option ℚ
  start_time : Option String
  end_time : Option String
  status : String
  deriving DecidableEq

/-- `get_assessment_summary` (firebase_config_new.py lines 243-295), the Summary
Reader / Progress Aggregator of the flattened schema.  With the store unavailable it
returns the hard-coded development summary.  Otherwise: `none` when no items match;
else item counts for both `total_questions` and `completed_questions`, the mean of the
non-`None` `overall` metrics (`None` when none is present), `min`/`max` of the truthy
recorded start/end times, and `status = "completed"` iff the item count is 3. -/
def get_assessment_summary (dbAvailable : Bool) (items : List FlatItem)
    (user_id assessment_id : String) : Option AssessmentSummary :=
  if dbAvailable = false then
    some { assessment_id := assessment_id
           user_id := user_id
           total_questions := 3
           completed_questions := 3
           overall_score := some (173 / 2)
           start_time := some "2024-01-01T00:00:00Z"
           end_time := some "2024-01-01T00:05:00Z"
           status := "completed" }
  else
    let its := get_assessment_items items user_id assessment_id
    if its.isEmpty then none
    else
      let overall_scores := its.filterMap (fun it => it.overall)
      let overall_score : Option ℚ :=
        if overall_scores.isEmpty then none
        else some (overall_scores.sum / (overall_scores.length : ℚ))
      let start_times := its.filterMap (fun it => truthyStr it.start_time)
      let end_times := its.filterMap (fun it => truthyStr it.end_time)
      some { assessment_id := assessment_id
             user_id := user_id
             total_questions := its.length
             completed_questions := its.length
             overall_score := overall_score
             start_time := pyMinString start_times
             end_time := pyMaxString end_times
             status := if its.length = 3 then "completed" else "in_progress" }

/-- One document of an assessment's `results` subcollection as the migrator reads it
(migrate_data.py lines 113-122): the document id is the question id; `speechsuper_response`
is carried as its numeric `result` dictionary (the only part the migrator's metric
fallback reads), `scores` as a numeric dictionary. -/
structure ResultDoc where
  question_id : String
  start_time : Option String
  end_time : Option String
  duration : Option ℚ
  ss_result : List (String × ℚ)
  scores : List (String × ℚ)
  deriving DecidableEq

/-- A nested-schema session as the migrator reads it: document id, the `user_id` field
(possibly absent), and the `results` subcollection in enumeration order. -/
structure MigSession where
  aid : String
  user_id : Option String
  results : List ResultDoc
  deriving DecidableEq

/-- The flattened item the migrator builds from one nested result record
(migrate_data.py lines 125-157): each denormalized metric is taken from the raw
upstream `result` field first, falling back to the stored `scores` value
(`to_num(r.get("overall"), scores.get("overall"))`). -/
def build_migrated_item (user_id aid : String) (res : ResultDoc) : FlatItem :=
  { user_id := user_id
    assessment_id := aid
    question_id := res.question_id
    question_index := derive_question_index res.question_id
    overall := to_num (dgetOpt res.ss_result "overall") (dgetOpt res.scores "overall")
    start_time := res.start_time
    end_time := res.end_time }

/-- Migration state: the batch being filled, the committed batches in order, and the
`migrated` counter. -/
structure MigState where
  batch : List FlatItem
  commits : List (List FlatItem)
  migrated : Nat
  deriving DecidableEq

/-- Queue one item on the batch (migrate_data.py lines 160-170): `writes += 1`,
`migrated += 1`, and when the batch reaches 450 queued operations commit it and start
a new one. -/
def mig_add_item (stt : MigState) (it : FlatItem) : MigState :=
  let batch := stt.batch ++ [it]
  if 450 ≤ batch.length then
    { batch := [], commits := stt.commits ++ [batch], migrated := stt.migrated + 1 }
  else
    { batch := batch, commits := stt.commits, migrated := stt.migrated + 1 }

/-- Process one session (migrate_data.py lines 91-174): skip it when `user_id` is
falsy (absent or empty), else queue one flattened item per result record.  (The
`if not results: continue` guard and the per-session exception handler change
nothing in the failure-free model.) -/
def mig_session (stt : MigState) (s : MigSession) : MigState :=
  match s.user_id with
  | none => stt
  | some u =>
      if u = "" then stt
      else s.results.foldl (fun acc r => mig_add_item acc (build_migrated_item u s.aid r)) stt

/-- `migrate_data` (migrate_data.py lines 68-189): fold over every session, then commit
the remaining queued writes when any are left (`if writes: batch.commit()`). -/
def migrate_data (corpus : List MigSession) : MigState :=
  let fin := corpus.foldl mig_session { batch := [], commits := [], migrated := 0 }
  if fin.batch.length ≠ 0 then
    { batch := [], commits := fin.commits ++ [fin.batch], migrated := fin.migrated }
  else fin

/-- Loop invariant of the migration: the open batch is strictly below the 450
threshold, every committed batch holds exactly 450 writes, and the `migrated` counter
equals the total number of queued items. -/
def MigInv (stt : MigState) : Prop :=
  stt.batch.length < 450 ∧
  stt.migrated = 450 * stt.commits.length + stt.batch.length ∧
  ∀ c ∈ stt.commits, c.length = 450

/-- Whether the migrator treats a session as having a `user_id`
(`if not user_id: continue`, Python truthiness). -/
def hasUserId (s : MigSession) : Bool :=
  match s.user_id with
  | none => false
  | some u => u != ""

/-- The number of nested per-question result records under sessions that have a
`user_id` — the `N` of the migration claim. -/
def migratableCount (corpus : List MigSession) : Nat :=
  ((corpus.filter hasUserId).map (fun s => s.results.length)).sum

/-- A single flattened item with no recorded metric and no recorded times. -/
def c9items : List FlatItem :=
  [{ user_id := "u1", assessment_id := "a1", question_id := "q1",
     question_index := some 1, overall := none, start_time := none, end_time := none }]

/-- The summary the Summary Reader computes for `c9items`. -/
def c9smry : AssessmentSummary :=
  { assessment_id := "a1", user_id := "u1", total_questions := 1, completed_questions := 1,
    overall_score := none, start_time := none, end_time := none, status := "in_progress" }

/-! ### Submission sequences and reachable stores -/

/-- The arguments of one call to `store_assessment_result` (store available). -/
structure Submission where
  user_id : String
  assessment_id : String
  question_id : String
  scores : List (String × ℚ)
  duration : ℚ
  start_time : Option String
  end_time : Option String
  now : Nat
  deriving DecidableEq

/-- The store after one submission. -/
def applySub (st : Store) (s : Submission) : Store :=
  (store_assessment_result true st s.user_id s.assessment_id s.question_id s.scores
    s.duration s.start_time s.end_time s.now).2

/-- Whether a submission hits the `assessment_doc.exists` fallback
(firebase_config.py line 285): no open session for the user, yet the freshly minted
identifier collides with an existing session document — possible when the user already
created a now fully-completed session during the same unix second. -/
def takesFallback (st : Store) (s : Submission) : Bool :=
  (find_existing_assessment st s.user_id).isNone
    && (storeGet st (mintedId s.user_id s.now)).isSome

/-- Whether a submission creates a brand-new session whose first recorded question has
question number 3 (the creation branch that sets `overall_score` immediately,
firebase_config.py lines 354-357). -/
def createsQ3First (st : Store) (s : Submission) : Bool :=
  (find_existing_assessment st s.user_id).isNone
    && (storeGet st (mintedId s.user_id s.now)).isNone
    && (questionNum s.question_id == some 3)

/-- Stores reachable from the empty store by submissions each allowed by `ok`. -/
inductive Reach (ok : Store → Submission → Bool) : Store → Prop where
  | nil : Reach ok []
  | step {st : Store} (s : Submission) : Reach ok st → ok st s = true →
      Reach ok (applySub st s)

/-- The run of a list of submissions from the empty store. -/
def runSubs (subs : List Submission) : Store :=
  subs.foldl applySub []

/-- Allowed-step predicate: the submission does not hit the minted-id-collision
fallback. -/
def okNoFallback (st : Store) (s : Submission) : Bool :=
  !takesFallback st s

/-- Allowed-step predicate: no minted-id-collision fallback and no brand-new session
whose first recorded question has question number 3. -/
def okNoFallbackNoQ3 (st : Store) (s : Submission) : Bool :=
  !takesFallback st s && !createsQ3First st s

/-- Structural invariant of every session document this code writes: status is forced
to `"completed"`, every recorded entry is marked completed, `completed_questions` is the
number of recorded entries, and that number is at most 3. -/
def DocInvA (d : AssessmentDoc) : Prop :=
  d.status = some "completed" ∧
  (∀ p ∈ d.question_results, p.2.completed = true) ∧
  d.completed_questions = some d.question_results.length ∧
  d.question_results.length ≤ 3

/-- `DocInvA` plus the aggregate-score invariant: `overall_score` is present exactly
when three questions are recorded, and then equals the mean of the recorded overall
metrics. -/
def DocInvB (d : AssessmentDoc) : Prop :=
  DocInvA d ∧
  (d.overall_score.isSome ↔ d.question_results.length = 3) ∧
  (d.question_results.length = 3 →
    d.overall_score
      = some (((d.question_results.map (fun p => dget p.2.scores "overall" 0)).sum) / 3))

/-! ### Concrete documents for witnesses and counterexamples -/

/-- Whether `s` starts with `pre` (the `"{user_id}_mock_*"` pattern check). -/
def startsWithStr (s pre : String) : Bool :=
  pre.toList.isPrefixOf s.toList

/-- A session with one recorded question — open (not fully completed). -/
def c1doc : AssessmentDoc :=
  { user_id := "u1"
    status := some "completed"
    total_questions := some 3
    completed_questions := some 1
    progress_percentage := some ((1 : ℚ) / 3 * 100)
    assessment_start_time := some TimeVal.server
    question_results := [("q1", ⟨true, [("overall", 80)], 10⟩)] }

/-- A fully completed session (three recorded questions, status `"completed"`). -/
def c5doc : AssessmentDoc :=
  { user_id := "u1"
    status := some "completed"
    total_questions := some 3
    completed_questions := some 3
    progress_percentage := some 100
    overall_score := some 85
    assessment_start_time := some TimeVal.server
    assessment_end_time := some TimeVal.server
    question_results :=
      [("q1", ⟨true, [("overall", 80)], 10⟩),
       ("q2", ⟨true, [("overall", 85)], 10⟩),
       ("q3", ⟨true, [("overall", 90)], 10⟩)] }

/-- Three sequential submissions `q1`/`q2`/`q3` (overall 80, 85, 90) for user `"u1"`. -/
def c3subs : List Submission :=
  [⟨"u1", "hint", "q1", [("overall", 80)], 10, none, none, 100⟩,
   ⟨"u1", "hint", "q2", [("overall", 85)], 10, none, none, 101⟩,
   ⟨"u1", "hint", "q3", [("overall", 90)], 10, none, none, 102⟩]

/-- The session document produced by the `c3subs` run. -/
def c3doc : AssessmentDoc :=
  updateDoc (updateDoc (newDoc "u1" "q1" [("overall", 80)] 10 none none 1)
    "q2" [("overall", 85)] 10 none none 2) "q3" [("overall", 90)] 10 none none 3

/-- Four submissions arriving within the same unix second 100: `q1`, `q2`, `q3`
complete the session `"u1_100"`, and the fourth (`q4`) collides with its minted id. -/
def c7subs : List Submission :=
  [⟨"u1", "hint", "q1", [("overall", 80)], 10, none, none, 100⟩,
   ⟨"u1", "hint", "q2", [("overall", 85)], 10, none, none, 100⟩,
   ⟨"u1", "hint", "q3", [("overall", 90)], 10, none, none, 100⟩,
   ⟨"u1", "hint", "q4", [("overall", 70)], 10, none, none, 100⟩]

/-- The first submission of `c7subs`, for the C7 witness. -/
def c7sub1 : Submission :=
  ⟨"u1", "hint", "q1", [("overall", 80)], 10, none, none, 100⟩

/-- A fully completed session stored under the id `"sess_1"` (hinted by the caller). -/
def c6doc : AssessmentDoc :=
  { user_id := "u1"
    status := some "completed"
    total_questions := some 3
    completed_questions := some 3
    progress_percentage := some 100
    overall_score := some 85
    question_results :=
      [("q1", ⟨true, [("overall", 80)], 10⟩),
       ("q2", ⟨true, [("overall", 85)], 10⟩),
       ("q3", ⟨true, [("overall", 90)], 10⟩)] }

/-! ### Theorems -/

/-! #### Unfolding lemmas for the upsert -/

theorem sar_unavailable (st : Store) (u aid qid : String) (sc : List (String × ℚ)) (du : ℚ)
    (s e : Option String) (now : Nat) :
    store_assessment_result false st u aid qid sc du s e now = (StoreOutcome.ok aid, st) :=
  rfl

theorem sar_hint_irrelevant (st : Store) (u aid1 aid2 qid : String) (sc : List (String × ℚ))
    (du : ℚ) (s e : Option String) (now : Nat) :
    store_assessment_result true st u aid1 qid sc du s e now
      = store_assessment_result true st u aid2 qid sc du s e now :=
  rfl

theorem sar_parse_failed {qid : String} (st : Store) (u aid : String)
    (sc : List (String × ℚ)) (du : ℚ) (s e : Option String) (now : Nat)
    (hq : questionNum qid = none) :
    store_assessment_result true st u aid qid sc du s e now = (StoreOutcome.failed, st) := by
  simp [store_assessment_result, hq]

theorem sar_located {st : Store} {u qid : String} {i : String} {d : AssessmentDoc} {qn : Int}
    (aid : String) (sc : List (String × ℚ)) (du : ℚ) (s e : Option String) (now : Nat)
    (hloc : find_existing_assessment st u = some (i, d))
    (hq : questionNum qid = some qn) :
    store_assessment_result true st u aid qid sc du s e now
      = (StoreOutcome.ok i, storeSet st i (updateDoc d qid sc du s e qn)) := by
  simp [store_assessment_result, hq, hloc]

theorem sar_fallback {st : Store} {u qid : String} {d : AssessmentDoc} {qn : Int}
    (aid : String) (sc : List (String × ℚ)) (du : ℚ) (s e : Option String) (now : Nat)
    (hloc : find_existing_assessment st u = none)
    (hget : storeGet st (mintedId u now) = some d)
    (hq : questionNum qid = some qn) :
    store_assessment_result true st u aid qid sc du s e now
      = (StoreOutcome.ok (mintedId u now),
         storeSet st (mintedId u now) (updateDoc d qid sc du s e qn)) := by
  simp [store_assessment_result, hq, hloc, hget]

theorem sar_fresh {st : Store} {u qid : String} {qn : Int}
    (aid : String) (sc : List (String × ℚ)) (du : ℚ) (s e : Option String) (now : Nat)
    (hloc : find_existing_assessment st u = none)
    (hget : storeGet st (mintedId u now) = none)
    (hq : questionNum qid = some qn) :
    store_assessment_result true st u aid qid sc du s e now
      = (StoreOutcome.ok (mintedId u now),
         st ++ [(mintedId u now, newDoc u qid sc du s e qn)]) := by
  simp [store_assessment_result, hq, hloc, hget]

theorem storeSet_map_fst (st : Store) (i : String) (d : AssessmentDoc) :
    (storeSet st i d).map Prod.fst = st.map Prod.fst := by
  induction st with
  | nil => rfl
  | cons p rest ih =>
      simp only [storeSet, List.map_cons] at ih ⊢
      by_cases h : p.1 = i <;> simp [h, ih]

theorem find?_first {α : Type} (p : α → Bool) :
    ∀ (l : List α) (x : α), l.find? p = some x →
      ∃ l1 l2, l = l1 ++ x :: l2 ∧ ∀ y ∈ l1, p y = false := by
  intro l
  induction l with
  | nil => intro x h; simp [List.find?] at h
  | cons a rest ih =>
      intro x h
      by_cases hp : p a
      · refine ⟨[], rest, ?_, by simp⟩
        rw [List.find?_cons_of_pos _ hp] at h
        simp_all
      · rw [List.find?_cons_of_neg _ (by simpa using hp)] at h
        obtain ⟨l1, l2, heq, hall⟩ := ih x h
        exact ⟨a :: l1, l2, by simp [heq], by
          intro y hy
          rcases List.mem_cons.mp hy with hy | hy
          · subst hy; simpa using hp
          · exact hall y hy⟩

mutual

theorem convert_fd_idem : (v : PyVal) →
    convert_firestore_datetime (convert_firestore_datetime v) = convert_firestore_datetime v
  | .dt _ => rfl
  | .str _ => rfl
  | .num _ => rfl
  | .pynull => rfl
  | .dict es => by
      simp only [convert_firestore_datetime, convert_fd_entries_idem es]
  | .list xs => by
      simp only [convert_firestore_datetime, convert_fd_elems_idem xs]

theorem convert_fd_entries_idem : (es : List (String × PyVal)) →
    convert_fd_entries (convert_fd_entries es) = convert_fd_entries es
  | [] => rfl
  | (k, v) :: rest => by
      simp only [convert_fd_entries, convert_fd_idem v, convert_fd_entries_idem rest]

theorem convert_fd_elems_idem : (xs : List PyVal) →
    convert_fd_elems (convert_fd_elems xs) = convert_fd_elems xs
  | [] => rfl
  | v :: rest => by
      simp only [convert_fd_elems, convert_fd_idem v, convert_fd_elems_idem rest]

end

mutual

theorem convert_fd_noiso : (v : PyVal) →
    contains_isoformat (convert_firestore_datetime v) = false
  | .dt _ => rfl
  | .str _ => rfl
  | .num _ => rfl
  | .pynull => rfl
  | .dict es => by
      simp only [convert_firestore_datetime, contains_isoformat, convert_fd_entries_noiso es]
  | .list xs => by
      simp only [convert_firestore_datetime, contains_isoformat, convert_fd_elems_noiso xs]

theorem convert_fd_entries_noiso : (es : List (String × PyVal)) →
    contains_isoformat_entries (convert_fd_entries es) = false
  | [] => rfl
  | (k, v) :: rest => by
      simp only [convert_fd_entries, contains_isoformat_entries, convert_fd_noiso v,
        convert_fd_entries_noiso rest, Bool.or_self]

theorem convert_fd_elems_noiso : (xs : List PyVal) →
    contains_isoformat_elems (convert_fd_elems xs) = false
  | [] => rfl
  | v :: rest => by
      simp only [convert_fd_elems, contains_isoformat_elems, convert_fd_noiso v,
        convert_fd_elems_noiso rest, Bool.or_self]

end

/-! #### Properties of dictionary assignment -/

theorem dictInsert_keys (k : String) (v : QEntry) (m : List (String × QEntry)) :
    (dictInsert k v m).map Prod.fst
      = if m.any (fun p => p.1 == k) then m.map Prod.fst else m.map Prod.fst ++ [k] := by
  unfold dictInsert
  by_cases h : m.any (fun p => p.1 == k)
  · simp only [h, if_true, List.map_map]
    refine List.map_congr_left ?_
    intro p _
    by_cases hp : p.1 = k
    · simp [hp]
    · simp [hp]
  · simp [h]

theorem find?_replace (k : String) (v : QEntry) :
    ∀ m : List (String × QEntry), m.any (fun p => p.1 == k) = true →
      (m.map (fun p => if p.1 = k then (k, v) else p)).find? (fun p => p.1 == k)
        = some (k, v) := by
  intro m
  induction m with
  | nil => intro h; simp at h
  | cons p rest ih =>
      intro h
      by_cases hp : p.1 = k
      · rw [List.map_cons, if_pos hp, List.find?_cons_of_pos _ (by simp)]
      · have hh : rest.any (fun q => q.1 == k) = true := by
          simp only [List.any_cons] at h
          rcases Bool.or_eq_true_iff.mp h with h1 | h1
          · exact absurd (by simpa using h1) hp
          · exact h1
        rw [List.map_cons, if_neg hp, List.find?_cons_of_neg _ (by simp [hp])]
        exact ih hh

theorem find?_appended (k : String) (v : QEntry) :
    ∀ m : List (String × QEntry), m.any (fun p => p.1 == k) = false →
      (m ++ [(k, v)]).find? (fun p => p.1 == k) = some (k, v) := by
  intro m
  induction m with
  | nil =>
      intro h
      rw [List.nil_append, List.find?_cons_of_pos _ (by simp)]
  | cons p rest ih =>
      intro h
      simp only [List.any_cons, Bool.or_eq_false_iff] at h
      rw [List.cons_append, List.find?_cons_of_neg _ (by simp [h.1])]
      exact ih h.2

theorem dictInsert_find (k : String) (v : QEntry) (m : List (String × QEntry)) :
    (dictInsert k v m).find? (fun p => p.1 == k) = some (k, v) := by
  unfold dictInsert
  by_cases h : m.any (fun p => p.1 == k)
  · rw [if_pos h]
    exact find?_replace k v m h
  · rw [if_neg h]
    exact find?_appended k v m (by rwa [Bool.not_eq_true] at h)

theorem dictInsert_length (k : String) (v : QEntry) (m : List (String × QEntry)) :
    (dictInsert k v m).length
      = if m.any (fun p => p.1 == k) then m.length else m.length + 1 := by
  unfold dictInsert
  by_cases h : m.any (fun p => p.1 == k) <;> simp [h]

theorem dictInsert_all_completed {m : List (String × QEntry)}
    (h : ∀ p ∈ m, p.2.completed = true) (k : String) (sc : List (String × ℚ)) (du : ℚ) :
    ∀ p ∈ dictInsert k ⟨true, sc, du⟩ m, p.2.completed = true := by
  unfold dictInsert
  by_cases hany : m.any (fun p => p.1 == k)
  · rw [if_pos hany]
    intro p hp
    obtain ⟨q, hq, rfl⟩ := List.mem_map.mp hp
    by_cases hqk : q.1 = k
    · simp [hqk]
    · simpa [hqk] using h q hq
  · rw [if_neg hany]
    intro p hp
    rcases List.mem_append.mp hp with hp | hp
    · exact h p hp
    · simp only [List.mem_singleton] at hp
      subst hp
      rfl

theorem filter_completed_eq_self {l : List (String × QEntry)}
    (h : ∀ p ∈ l, p.2.completed = true) :
    l.filter (fun p => p.2.completed) = l :=
  List.filter_eq_self.mpr h

theorem updateDoc_question_results (cur : AssessmentDoc) (qid : String)
    (sc : List (String × ℚ)) (du : ℚ) (s e : Option String) (qn : Int) :
    (updateDoc cur qid sc du s e qn).question_results
      = dictInsert qid ⟨true, sc, du⟩ cur.question_results :=
  rfl

theorem updateDoc_completed_questions (cur : AssessmentDoc) (qid : String)
    (sc : List (String × ℚ)) (du : ℚ) (s e : Option String) (qn : Int) :
    (updateDoc cur qid sc du s e qn).completed_questions
      = some (((dictInsert qid ⟨true, sc, du⟩ cur.question_results).filter
          (fun p => p.2.completed)).length) :=
  rfl

/-! #### C2: resubmission semantics of the two schemas -/

/-- C2 counterexample: in the flattened-schema item store
(`collection("assessment_items").add(doc)`), submitting `question_id = "q1"` twice
for the same user and session stores TWO records with question id `"q1"` — the second
submission does not overwrite the first, so the claim is false for the flattened
schema. -/
theorem C2_counterexample :
    ((store_assessment_item true
        (store_assessment_item true [] "u1" "a1" "q1" [("overall", 80)] [] none none).2
        "u1" "a1" "q1" [("overall", 88)] [] none none).2).map (fun it => it.question_id)
      = ["q1", "q1"] :=
  rfl

/-- C2 (amended): in the nested-schema upsert, resubmitting a `question_id` to the
session the Locator selects targets that same session and overwrites the entry in
place — the recorded keys stay exactly the previous keys when the id was already
recorded (and gain just the one new key otherwise), the entry under the id carries the
new result, and `completed_questions` equals the number of recorded entries (no double
count).  The flattened-schema item store instead appends one brand-new record on every
submission, so resubmitting a `question_id` yields a duplicate record rather than an
overwrite. -/
theorem C2_resubmission_overwrites :
    (∀ (st : Store) (u aid qid : String) (sc : List (String × ℚ)) (du : ℚ)
        (s e : Option String) (now : Nat) (i : String) (d : AssessmentDoc) (qn : Int),
      find_existing_assessment st u = some (i, d) → questionNum qid = some qn →
      (∀ p ∈ d.question_results, p.2.completed = true) →
      store_assessment_result true st u aid qid sc du s e now
          = (StoreOutcome.ok i, storeSet st i (updateDoc d qid sc du s e qn)) ∧
      ((updateDoc d qid sc du s e qn).question_results).map Prod.fst
          = (if d.question_results.any (fun p => p.1 == qid) then
              d.question_results.map Prod.fst
             else d.question_results.map Prod.fst ++ [qid]) ∧
      ((updateDoc d qid sc du s e qn).question_results).find? (fun p => p.1 == qid)
          = some (qid, ⟨true, sc, du⟩) ∧
      (updateDoc d qid sc du s e qn).completed_questions
          = some ((updateDoc d qid sc du s e qn).question_results.length)) ∧
    (∀ (items : List FlatItem) (u aid qid : String) (r sc : List (String × ℚ))
        (s e : Option String),
      ((store_assessment_item true items u aid qid r sc s e).2).map (fun it => it.question_id)
          = items.map (fun it => it.question_id) ++ [qid]) := by
  constructor
  · intro st u aid qid sc du s e now i d qn hloc hq hcomp
    refine ⟨sar_located aid sc du s e now hloc hq, ?_, ?_, ?_⟩
    · rw [updateDoc_question_results, dictInsert_keys]
    · rw [updateDoc_question_results, dictInsert_find]
    · rw [updateDoc_completed_questions, updateDoc_question_results,
        filter_completed_eq_self (dictInsert_all_completed hcomp qid sc du)]
  · intro items u aid qid r sc s e
    simp [store_assessment_item]

/-- Witness for C2: resubmitting `"q1"` to a store holding one open session that
already recorded `"q1"` keeps the single recorded key and counts one completed
question. -/
theorem C2_resubmission_overwrites_witness :
    ((updateDoc c1doc "q1" [("overall", 99)] 11 none none 1).question_results).map Prod.fst
        = c1doc.question_results.map Prod.fst ∧
    (updateDoc c1doc "q1" [("overall", 99)] 11 none none 1).completed_questions
        = some ((updateDoc c1doc "q1" [("overall", 99)] 11 none none 1).question_results.length) := by
  have h := (C2_resubmission_overwrites).1 [("u1_100", c1doc)] "u1" "hint" "q1"
    [("overall", 99)] 11 none none 300 "u1_100" c1doc 1 rfl rfl (by decide)
  exact ⟨by rw [h.2.1]; decide, h.2.2.2⟩

/-! #### Invariants of reachable stores -/

theorem locate_mem {st : Store} {u i : String} {d : AssessmentDoc}
    (h : find_existing_assessment st u = some (i, d)) : (i, d) ∈ st := by
  have hmem := List.mem_of_find?_eq_some h
  exact (List.mem_filter.mp hmem).1

theorem locate_open {st : Store} {u i : String} {d : AssessmentDoc}
    (h : find_existing_assessment st u = some (i, d)) : isFullyCompleted d = false := by
  have := List.find?_some h
  simpa using this

theorem located_len_le_two {d : AssessmentDoc} (hA : DocInvA d)
    (hopen : isFullyCompleted d = false) : d.question_results.length ≤ 2 := by
  obtain ⟨hstat, -, hcq, -⟩ := hA
  unfold isFullyCompleted at hopen
  rw [hstat, hcq] at hopen
  simp only [beq_self_eq_true, Bool.true_and, decide_eq_false_iff_not, Option.getD_some] at hopen
  omega

theorem mem_storeSet {st : Store} {i : String} {d : AssessmentDoc}
    {p : String × AssessmentDoc} (h : p ∈ storeSet st i d) : p = (i, d) ∨ p ∈ st := by
  obtain ⟨q, hq, hpq⟩ := List.mem_map.mp h
  by_cases hqi : q.1 = i
  · left; rw [← hpq, if_pos hqi]
  · right; rw [← hpq, if_neg hqi]; exact hq

theorem updateDoc_invA {d : AssessmentDoc} (hA : DocInvA d)
    (hlen : d.question_results.length ≤ 2) (qid : String) (sc : List (String × ℚ))
    (du : ℚ) (s e : Option String) (qn : Int) :
    DocInvA (updateDoc d qid sc du s e qn) := by
  have hcomp' := dictInsert_all_completed hA.2.1 qid sc du
  refine ⟨rfl, ?_, ?_, ?_⟩
  · rw [updateDoc_question_results]
    exact hcomp'
  · rw [updateDoc_completed_questions, updateDoc_question_results,
      filter_completed_eq_self hcomp']
  · rw [updateDoc_question_results, dictInsert_length]
    split <;> omega

theorem newDoc_invA (u qid : String) (sc : List (String × ℚ)) (du : ℚ)
    (s e : Option String) (qn : Int) : DocInvA (newDoc u qid sc du s e qn) := by
  by_cases hq : qn = 3 <;>
    simp [newDoc, hq, DocInvA]

theorem reach_invA {st : Store} (h : Reach okNoFallback st) :
    ∀ p ∈ st, DocInvA p.2 := by
  induction h with
  | nil => intro p hp; simp at hp
  | @step st s hr hok ih =>
      intro p hp
      unfold applySub at hp
      cases hq : questionNum s.question_id with
      | none =>
          rw [sar_parse_failed st s.user_id s.assessment_id s.scores s.duration
            s.start_time s.end_time s.now hq] at hp
          exact ih p hp
      | some qn =>
          cases hloc : find_existing_assessment st s.user_id with
          | some pr =>
              obtain ⟨i, d⟩ := pr
              rw [sar_located s.assessment_id s.scores s.duration s.start_time
                s.end_time s.now hloc hq] at hp
              rcases mem_storeSet hp with rfl | hp
              · have hd := ih _ (locate_mem hloc)
                exact updateDoc_invA hd (located_len_le_two hd (locate_open hloc))
                  s.question_id s.scores s.duration s.start_time s.end_time qn
              · exact ih p hp
          | none =>
              cases hget : storeGet st (mintedId s.user_id s.now) with
              | some d =>
                  exfalso
                  unfold okNoFallback takesFallback at hok
                  rw [hloc, hget] at hok
                  simp at hok
              | none =>
                  rw [sar_fresh s.assessment_id s.scores s.duration s.start_time
                    s.end_time s.now hloc hget hq] at hp
                  rcases List.mem_append.mp hp with hp | hp
                  · exact ih p hp
                  · simp only [List.mem_singleton] at hp
                    subst hp
                    exact newDoc_invA s.user_id s.question_id s.scores s.duration
                      s.start_time s.end_time qn

theorem updateDoc_overall_score (cur : AssessmentDoc) (qid : String)
    (sc : List (String × ℚ)) (du : ℚ) (s e : Option String) (qn : Int) :
    (updateDoc cur qid sc du s e qn).overall_score
      = (if ((dictInsert qid ⟨true, sc, du⟩ cur.question_results).filter
            (fun p => p.2.completed)).length = 3
         then some ((((dictInsert qid ⟨true, sc, du⟩ cur.question_results).map
            (fun p => dget p.2.scores "overall" 0)).sum) / 3)
         else cur.overall_score) := by
  by_cases h : ((dictInsert qid ⟨true, sc, du⟩ cur.question_results).filter
      (fun p => p.2.completed)).length = 3 <;>
    simp [updateDoc, h]

theorem updateDoc_invB {d : AssessmentDoc} (hB : DocInvB d)
    (hlen : d.question_results.length ≤ 2) (qid : String) (sc : List (String × ℚ))
    (du : ℚ) (s e : Option String) (qn : Int) :
    DocInvB (updateDoc d qid sc du s e qn) := by
  obtain ⟨hA, hiff, hmean⟩ := hB
  have hcomp' := dictInsert_all_completed hA.2.1 qid sc du
  have hfe : ((dictInsert qid ⟨true, sc, du⟩ d.question_results).filter
      (fun p => p.2.completed)) = dictInsert qid ⟨true, sc, du⟩ d.question_results :=
    filter_completed_eq_self hcomp'
  have hnone : d.overall_score = none := by
    rcases ho : d.overall_score with - | v
    · rfl
    · exfalso
      have : d.question_results.length = 3 := hiff.mp (by rw [ho]; rfl)
      omega
  refine ⟨updateDoc_invA hA hlen qid sc du s e qn, ?_, ?_⟩
  · rw [updateDoc_overall_score, updateDoc_question_results, hfe]
    by_cases h3 : (dictInsert qid ⟨true, sc, du⟩ d.question_results).length = 3
    · simp [h3]
    · simp [h3, hnone]
  · intro h3
    rw [updateDoc_question_results] at h3
    rw [updateDoc_overall_score, hfe, if_pos h3, updateDoc_question_results]

theorem newDoc_invB (u qid : String) (sc : List (String × ℚ)) (du : ℚ)
    (s e : Option String) (qn : Int) (hq : qn ≠ 3) :
    DocInvB (newDoc u qid sc du s e qn) := by
  refine ⟨newDoc_invA u qid sc du s e qn, ?_, ?_⟩ <;>
    simp [newDoc, hq]

theorem reach_invB {st : Store} (h : Reach okNoFallbackNoQ3 st) :
    ∀ p ∈ st, DocInvB p.2 := by
  induction h with
  | nil => intro p hp; simp at hp
  | @step st s hr hok ih =>
      intro p hp
      unfold applySub at hp
      unfold okNoFallbackNoQ3 at hok
      rw [Bool.and_eq_true] at hok
      cases hq : questionNum s.question_id with
      | none =>
          rw [sar_parse_failed st s.user_id s.assessment_id s.scores s.duration
            s.start_time s.end_time s.now hq] at hp
          exact ih p hp
      | some qn =>
          cases hloc : find_existing_assessment st s.user_id with
          | some pr =>
              obtain ⟨i, d⟩ := pr
              rw [sar_located s.assessment_id s.scores s.duration s.start_time
                s.end_time s.now hloc hq] at hp
              rcases mem_storeSet hp with rfl | hp
              · have hd := ih _ (locate_mem hloc)
                exact updateDoc_invB hd (located_len_le_two hd.1 (locate_open hloc))
                  s.question_id s.scores s.duration s.start_time s.end_time qn
              · exact ih p hp
          | none =>
              cases hget : storeGet st (mintedId s.user_id s.now) with
              | some d =>
                  exfalso
                  have hfb := hok.1
                  unfold takesFallback at hfb
                  rw [hloc, hget] at hfb
                  simp at hfb
              | none =>
                  rw [sar_fresh s.assessment_id s.scores s.duration s.start_time
                    s.end_time s.now hloc hget hq] at hp
                  rcases List.mem_append.mp hp with hp | hp
                  · exact ih p hp
                  · simp only [List.mem_singleton] at hp
                    subst hp
                    have hq3 : qn ≠ 3 := by
                      intro hqn
                      have hc := hok.2
                      unfold createsQ3First at hc
                      rw [hloc, hget, hq, hqn] at hc
                      simp at hc
                    exact newDoc_invB s.user_id s.question_id s.scores s.duration
                      s.start_time s.end_time qn hq3

/-! #### C7: range of `completed_questions` -/

/-- C7 counterexample: four submissions inside the same unix second — `q1`, `q2`, `q3`
completing session `"u1_100"`, then `q4` — leave `completed_questions = 4`.  The fourth
submission finds no open session, mints the colliding id `"u1_100"`, and the
`assessment_doc.exists` fallback merges a fourth entry into the fully-completed
session's `question_results`, so the claimed range `[0,3]` is violated. -/
theorem C7_counterexample :
    ((runSubs c7subs).map (fun p => (p.1, p.2.completed_questions)))
      = [("u1_100", some 4)] ∧ ¬((4 : Nat) ≤ 3) :=
  ⟨rfl, by decide⟩

/-- C7 (amended): over every sequence of submissions from an empty store in which no
submission hits the minted-id-collision fallback (no submission both finds no open
session and mints an identifier equal to an existing session document's id),
`completed_questions` is present on every stored session and lies in `[0,3]` — this
holds for arbitrary `question_id`s, including ones outside `q1..q3`. -/
theorem C7_completed_questions_in_range (st : Store) (h : Reach okNoFallback st) :
    ∀ i d, (i, d) ∈ st → ∃ n : Nat, d.completed_questions = some n ∧ n ≤ 3 := by
  intro i d hmem
  have hA := reach_invA h (i, d) hmem
  exact ⟨d.question_results.length, hA.2.2.1, hA.2.2.2⟩

/-- Witness for C7 after one allowed submission from the empty store. -/
theorem C7_completed_questions_in_range_witness :
    ∃ n : Nat,
      (newDoc "u1" "q1" [("overall", 80)] 10 none none 1).completed_questions = some n ∧
      n ≤ 3 :=
  C7_completed_questions_in_range (applySub [] c7sub1)
    (Reach.step c7sub1 Reach.nil (by decide)) "u1_100"
    (newDoc "u1" "q1" [("overall", 80)] 10 none none 1)
    (by
      rw [show applySub [] c7sub1
          = [("u1_100", newDoc "u1" "q1" [("overall", 80)] 10 none none 1)] from rfl]
      exact List.mem_singleton_self _)

/-! #### C3: presence and value of `overall_score` -/

/-- C3 counterexample: a fresh user whose first submission is `q3` gets a brand-new
session with `completed_questions = 1` and `overall_score` already present
(firebase_config.py lines 354-357) — so `overall_score` present does NOT imply
`completed_questions = 3`, refuting the claimed equivalence. -/
theorem C3_counterexample :
    ((applySub [] ⟨"u1", "hint", "q3", [("overall", 90)], 10, none, none, 100⟩).map
        (fun p => (p.1, p.2.completed_questions, p.2.overall_score.isSome)))
      = [("u1_100", some 1, true)] ∧ (1 : Nat) ≠ 3 :=
  ⟨rfl, by decide⟩

/-- C3 (amended): over submissions from an empty store that never hit the
minted-id-collision fallback and never create a session by a first submission with
question number 3, every stored session has `overall_score` present iff
`completed_questions = 3`, and then it equals the arithmetic mean of the recorded
questions' overall metrics; in particular the `q1`/`q2`/`q3` run with overall scores
80, 85, 90 ends with `overall_score = 85`. -/
theorem C3_overall_score_iff_complete :
    (∀ st, Reach okNoFallbackNoQ3 st → ∀ i d, (i, d) ∈ st →
      (d.overall_score.isSome ↔ d.completed_questions = some 3) ∧
      (d.completed_questions = some 3 →
        d.overall_score
          = some (((d.question_results.map (fun p => dget p.2.scores "overall" 0)).sum) / 3))) ∧
    (runSubs c3subs).map (fun p => p.2.overall_score) = [some 85] := by
  constructor
  · intro st h i d hmem
    obtain ⟨hA, hiff, hmean⟩ := reach_invB h (i, d) hmem
    have hcq := hA.2.2.1
    constructor
    · rw [hcq]
      simpa only [Option.some.injEq] using hiff
    · intro h3
      rw [hcq] at h3
      simp only [Option.some.injEq] at h3
      exact hmean h3
  · rw [show runSubs c3subs = [("u1_100", c3doc)] from rfl]
    simp only [List.map_cons, List.map_nil]
    have : c3doc.overall_score = some 85 := by
      rw [show c3doc = updateDoc (updateDoc (newDoc "u1" "q1" [("overall", 80)] 10
        none none 1) "q2" [("overall", 85)] 10 none none 2) "q3" [("overall", 90)] 10
        none none 3 from rfl]
      rw [updateDoc_overall_score]
      rw [show dictInsert "q3" ⟨true, [("overall", 90)], 10⟩
          (updateDoc (newDoc "u1" "q1" [("overall", 80)] 10 none none 1)
            "q2" [("overall", 85)] 10 none none 2).question_results
          = [("q1", ⟨true, [("overall", 80)], 10⟩), ("q2", ⟨true, [("overall", 85)], 10⟩),
             ("q3", ⟨true, [("overall", 90)], 10⟩)] from rfl]
      rw [if_pos (show (List.filter (fun p : String × QEntry => p.2.completed)
          [("q1", ⟨true, [("overall", 80)], 10⟩), ("q2", ⟨true, [("overall", 85)], 10⟩),
           ("q3", ⟨true, [("overall", 90)], 10⟩)]).length = 3 from rfl)]
      rw [show List.map (fun p : String × QEntry => dget p.2.scores "overall" 0)
          [("q1", ⟨true, [("overall", 80)], 10⟩), ("q2", ⟨true, [("overall", 85)], 10⟩),
           ("q3", ⟨true, [("overall", 90)], 10⟩)] = [(80 : ℚ), 85, 90] from rfl]
      norm_num [List.sum_cons, List.sum_nil]
    rw [this]

/-- Witness for C3 at the store produced by the `q1`/`q2`/`q3` run: the equivalence
holds on its single session document. -/
theorem C3_overall_score_iff_complete_witness :
    c3doc.overall_score.isSome ↔ c3doc.completed_questions = some 3 :=
  ((C3_overall_score_iff_complete).1 (runSubs c3subs)
    (Reach.step ⟨"u1", "hint", "q3", [("overall", 90)], 10, none, none, 102⟩
      (Reach.step ⟨"u1", "hint", "q2", [("overall", 85)], 10, none, none, 101⟩
        (Reach.step ⟨"u1", "hint", "q1", [("overall", 80)], 10, none, none, 100⟩
          Reach.nil (by decide)) (by decide)) (by decide))
    "u1_100" c3doc
    (by
      rw [show runSubs c3subs = [("u1_100", c3doc)] from rfl]
      exact List.mem_singleton_self _)).1

/-! #### C1: the Locator's result wins over caller-supplied hints -/

/-- C1: whenever the Locator finds an open session for the user, the upsert targets
that session and returns its id (provided the question-number parse does not raise, in
which case the call returns the failure sentinel); the set of stored session ids is
unchanged — no second session can be created — and the entire operation is independent
of the caller-supplied assessment-id hint. -/
theorem C1_locator_wins (st : Store) (u aid qid : String) (sc : List (String × ℚ))
    (du : ℚ) (s e : Option String) (now : Nat) (i : String) (d : AssessmentDoc)
    (hloc : find_existing_assessment st u = some (i, d)) :
    ((questionNum qid).isSome →
      (store_assessment_result true st u aid qid sc du s e now).1 = StoreOutcome.ok i) ∧
    ((store_assessment_result true st u aid qid sc du s e now).2).map Prod.fst
        = st.map Prod.fst ∧
    ∀ aid2, store_assessment_result true st u aid2 qid sc du s e now
        = store_assessment_result true st u aid qid sc du s e now := by
  refine ⟨?_, ?_, ?_⟩
  · intro hq
    obtain ⟨qn, hqn⟩ := Option.isSome_iff_exists.mp hq
    rw [sar_located aid sc du s e now hloc hqn]
  · cases hqn : questionNum qid with
    | none => rw [sar_parse_failed st u aid sc du s e now hqn]
    | some qn =>
        rw [sar_located aid sc du s e now hloc hqn]
        exact storeSet_map_fst st i _
  · intro aid2
    exact sar_hint_irrelevant st u aid2 aid qid sc du s e now

/-- Witness for C1 at a concrete store holding one open session for `"u1"`: a
submission carrying the foreign hint `"frontend_hint"` still lands on that session. -/
theorem C1_locator_wins_witness :
    (store_assessment_result true [("u1_100", c1doc)] "u1" "frontend_hint" "q2"
        [("overall", 85)] 20 none none 200).1 = StoreOutcome.ok "u1_100" :=
  (C1_locator_wins [("u1_100", c1doc)] "u1" "frontend_hint" "q2" [("overall", 85)] 20
    none none 200 "u1_100" c1doc rfl).1 (by decide)

/-! #### C4: behaviour when the backing store is unavailable -/

/-- C4 counterexample: with the store unavailable, the first unavailability check
(firebase_config.py lines 116-122) returns the caller-supplied assessment id — here
`"auto_generated"` — which does not match the pattern `"u1_mock_*"`; the
`"{user_id}_mock_{timestamp}"` branch at line 136 is unreachable because the client is
cached.  So the claim that the returned identifier matches `"{user_id}_mock_*"` is
false. -/
theorem C4_counterexample :
    (store_assessment_result false [] "u1" "auto_generated" "q1" [] 0 none none 0).1
        = StoreOutcome.ok "auto_generated" ∧
    startsWithStr "auto_generated" ("u1" ++ "_mock_") = false := by
  exact ⟨rfl, by decide⟩

/-- C4 (amended): when the backing store is unavailable the upsert raises no error,
writes nothing, and returns the caller-supplied assessment id unchanged. -/
theorem C4_unavailable_mock_mode (st : Store) (u aid qid : String)
    (sc : List (String × ℚ)) (du : ℚ) (s e : Option String) (now : Nat) :
    store_assessment_result false st u aid qid sc du s e now = (StoreOutcome.ok aid, st) :=
  sar_unavailable st u aid qid sc du s e now

/-! #### C5: what the Locator selects -/

/-- C5 counterexample: the upsert CAN target a fully-completed session.  With the
store holding the fully-completed session `"u1_100"` (created at unix second 100) and
a fourth submission arriving at the same second, the Locator finds nothing, the minted
id collides with `"u1_100"`, and the `assessment_doc.exists` fallback updates that
closed session — returning its id and pushing its `completed_questions` to 4. -/
theorem C5_counterexample :
    isFullyCompleted c5doc = true ∧
    (store_assessment_result true [("u1_100", c5doc)] "u1" "hint" "q4"
        [("overall", 70)] 10 none none 100).1 = StoreOutcome.ok "u1_100" ∧
    ((store_assessment_result true [("u1_100", c5doc)] "u1" "hint" "q4"
        [("overall", 70)] 10 none none 100).2).map
          (fun p => (p.1, p.2.completed_questions)) = [("u1_100", some 4)] := by
  refine ⟨by decide, by decide, by decide⟩

/-- C5 (amended): the Locator itself never selects a fully-completed session
(`status == "completed"` and `completed_questions >= 3`): it returns the first scanned
session of the user that is not fully completed, or `none` when every one is.  The
upsert, however, targets the Locator's selection only when one exists; when none exists
and the minted identifier collides with an existing (necessarily fully-completed)
session document, the upsert updates that closed session. -/
theorem C5_locator_never_selects_completed (st : Store) (u : String) :
    (∀ i d, find_existing_assessment st u = some (i, d) → isFullyCompleted d = false) ∧
    (∀ i d, find_existing_assessment st u = some (i, d) →
      ∃ pre post, userAssessments st u = pre ++ (i, d) :: post ∧
        ∀ p ∈ pre, isFullyCompleted p.2 = true) ∧
    (find_existing_assessment st u = none ↔
      ∀ p ∈ userAssessments st u, isFullyCompleted p.2 = true) := by
  refine ⟨?_, ?_, ?_⟩
  · intro i d h
    have := List.find?_some h
    simpa using this
  · intro i d h
    obtain ⟨pre, post, heq, hall⟩ := find?_first _ _ _ h
    refine ⟨pre, post, heq, fun p hp => ?_⟩
    have := hall p hp
    simpa using this
  · unfold find_existing_assessment
    rw [List.find?_eq_none]
    constructor
    · intro h p hp
      have := h p hp
      simpa using this
    · intro h p hp
      simpa using h p hp

/-- Witness for C5 at a concrete two-session store: the Locator skips the
fully-completed first session and selects the open second one. -/
theorem C5_locator_never_selects_completed_witness :
    isFullyCompleted c1doc = false ∧
    ∃ pre post,
      userAssessments [("u1_50", c5doc), ("u1_100", c1doc)] "u1"
          = pre ++ ("u1_100", c1doc) :: post ∧
        ∀ p ∈ pre, isFullyCompleted p.2 = true := by
  refine ⟨(C5_locator_never_selects_completed
    [("u1_50", c5doc), ("u1_100", c1doc)] "u1").1 "u1_100" c1doc rfl,
    (C5_locator_never_selects_completed
    [("u1_50", c5doc), ("u1_100", c1doc)] "u1").2.1 "u1_100" c1doc rfl⟩

/-! #### C6: what happens when no open session exists -/

/-- C6 counterexample: the hint `"sess_1"` names an existing session document of the
user (fully completed, so the Locator returns nothing), yet the upsert does not reuse
it: it mints and returns `"u1_555"` from the user id and the unix timestamp. -/
theorem C6_counterexample :
    storeGet [("sess_1", c6doc)] "sess_1" = some c6doc ∧
    (store_assessment_result true [("sess_1", c6doc)] "u1" "sess_1" "q1"
        [("overall", 80)] 10 none none 555).1 = StoreOutcome.ok "u1_555" ∧
    ("u1_555" : String) ≠ "sess_1" := by
  refine ⟨rfl, by decide, by decide⟩

/-- C6 (amended): whenever the Locator finds no open session for the user, the upsert
unconditionally mints `"{user_id}_{unix_timestamp}"` and returns it; the caller-supplied
hint is never consulted, even when it references an existing session document. -/
theorem C6_mints_new_id (st : Store) (u aid qid : String) (sc : List (String × ℚ))
    (du : ℚ) (s e : Option String) (now : Nat)
    (hnone : find_existing_assessment st u = none) (hq : (questionNum qid).isSome) :
    (store_assessment_result true st u aid qid sc du s e now).1
        = StoreOutcome.ok (mintedId u now) := by
  obtain ⟨qn, hqn⟩ := Option.isSome_iff_exists.mp hq
  cases hget : storeGet st (mintedId u now) with
  | none => rw [sar_fresh aid sc du s e now hnone hget hqn]
  | some d => rw [sar_fallback aid sc du s e now hnone hget hqn]

/-- Witness for C6 on the empty store: the returned id is the minted
`"{user_id}_{unix_timestamp}"`. -/
theorem C6_mints_new_id_witness :
    (store_assessment_result true [] "u1" "ignored_hint" "q1" [] 0 none none 42).1
        = StoreOutcome.ok (mintedId "u1" 42) :=
  C6_mints_new_id [] "u1" "ignored_hint" "q1" [] 0 none none 42 rfl (by decide)

/-! #### C8: migration counts and batch commits -/

theorem mig_add_item_inv {stt : MigState} (h : MigInv stt) (it : FlatItem) :
    MigInv (mig_add_item stt it) ∧ (mig_add_item stt it).migrated = stt.migrated + 1 := by
  obtain ⟨hb, hm, hc⟩ := h
  unfold mig_add_item
  by_cases h450 : 450 ≤ (stt.batch ++ [it]).length
  · rw [if_pos h450]
    simp only [List.length_append, List.length_singleton] at h450
    refine ⟨⟨by simp, ?_, ?_⟩, rfl⟩
    · simp only [List.length_nil, List.length_append, List.length_singleton]
      omega
    · intro c hcmem
      rcases List.mem_append.mp hcmem with hmem | hmem
      · exact hc c hmem
      · simp only [List.mem_singleton] at hmem
        subst hmem
        simp only [List.length_append, List.length_singleton]
        omega
  · rw [if_neg h450]
    simp only [List.length_append, List.length_singleton] at h450
    refine ⟨⟨?_, ?_, hc⟩, rfl⟩
    · simp only [List.length_append, List.length_singleton]
      omega
    · simp only [List.length_append, List.length_singleton]
      omega

theorem mig_fold_inv (f : ResultDoc → FlatItem) :
    ∀ (l : List ResultDoc) (stt : MigState), MigInv stt →
      MigInv (l.foldl (fun acc r => mig_add_item acc (f r)) stt) ∧
      (l.foldl (fun acc r => mig_add_item acc (f r)) stt).migrated
        = stt.migrated + l.length := by
  intro l
  induction l with
  | nil => intro stt h; exact ⟨h, by simp⟩
  | cons r rest ih =>
      intro stt h
      have h1 := mig_add_item_inv h (f r)
      have h2 := ih (mig_add_item stt (f r)) h1.1
      refine ⟨h2.1, ?_⟩
      rw [List.foldl_cons, h2.2, h1.2, List.length_cons]
      omega

theorem mig_session_inv {stt : MigState} (s : MigSession) (h : MigInv stt) :
    MigInv (mig_session stt s) ∧
    (mig_session stt s).migrated
      = stt.migrated + (if hasUserId s then s.results.length else 0) := by
  cases hu : s.user_id with
  | none =>
      have h1 : mig_session stt s = stt := by
        simp only [mig_session, hu]
      have h2 : hasUserId s = false := by
        simp only [hasUserId, hu]
      rw [h1, h2]
      exact ⟨h, by simp⟩
  | some u =>
      by_cases hu0 : u = ""
      · have h1 : mig_session stt s = stt := by
          simp only [mig_session, hu]
          rw [if_pos hu0]
        have h2 : hasUserId s = false := by
          simp only [hasUserId, hu]
          simp [hu0]
        rw [h1, h2]
        exact ⟨h, by simp⟩
      · have h1 : mig_session stt s = s.results.foldl
            (fun acc r => mig_add_item acc (build_migrated_item u s.aid r)) stt := by
          simp only [mig_session, hu]
          rw [if_neg hu0]
        have h2 : hasUserId s = true := by
          simp only [hasUserId, hu]
          simp [hu0]
        rw [h1, h2]
        have hfold := mig_fold_inv (fun r => build_migrated_item u s.aid r) s.results stt h
        simpa using hfold

theorem migratableCount_cons (s : MigSession) (cs : List MigSession) :
    migratableCount (s :: cs)
      = (if hasUserId s then s.results.length else 0) + migratableCount cs := by
  unfold migratableCount
  by_cases h : hasUserId s <;> simp [h]

theorem mig_corpus_inv :
    ∀ (corpus : List MigSession) (stt : MigState), MigInv stt →
      MigInv (corpus.foldl mig_session stt) ∧
      (corpus.foldl mig_session stt).migrated = stt.migrated + migratableCount corpus := by
  intro corpus
  induction corpus with
  | nil =>
      intro stt h
      refine ⟨h, ?_⟩
      simp [migratableCount]
  | cons s rest ih =>
      intro stt h
      have h1 := mig_session_inv s h
      have h2 := ih (mig_session stt s) h1.1
      refine ⟨h2.1, ?_⟩
      rw [List.foldl_cons, h2.2, h1.2, migratableCount_cons]
      omega

/-- C8: migrating a corpus with `N` result records under sessions that have a
`user_id` queues exactly `N` flattened items, committed in batches whose sizes are
`N / 450` full batches of 450 followed by one final partial batch of `N mod 450` items
when any remain; every commit holds at most 450 operations, the committed items total
exactly `N`, and in particular `N = 451` yields exactly the two commits `[450, 1]`. -/
theorem C8_migration_batches (corpus : List MigSession) :
    (migrate_data corpus).migrated = migratableCount corpus ∧
    ((migrate_data corpus).commits.map List.length)
      = (List.replicate (migratableCount corpus / 450) 450
         ++ (if migratableCount corpus % 450 = 0 then []
             else [migratableCount corpus % 450])) ∧
    (∀ c ∈ (migrate_data corpus).commits, c.length ≤ 450) ∧
    (((migrate_data corpus).commits.map List.length).sum = migratableCount corpus) ∧
    (migratableCount corpus = 451 →
      (migrate_data corpus).commits.map List.length = [450, 1]) := by
  have hinit : MigInv ⟨[], [], 0⟩ := ⟨by simp, by simp, by intro c hc; simp at hc⟩
  obtain ⟨⟨hb, hm, hc⟩, hmig⟩ := mig_corpus_inv corpus ⟨[], [], 0⟩ hinit
  rw [Nat.zero_add] at hmig
  have hrep : (corpus.foldl mig_session ⟨[], [], 0⟩).commits.map List.length
      = List.replicate (corpus.foldl mig_session ⟨[], [], 0⟩).commits.length 450 := by
    refine List.eq_replicate_iff.mpr ⟨by simp, ?_⟩
    intro b hbm
    obtain ⟨c, hcm, rfl⟩ := List.mem_map.mp hbm
    exact hc c hcm
  have hk : (corpus.foldl mig_session ⟨[], [], 0⟩).commits.length
      = migratableCount corpus / 450 := by omega
  have hbl : (corpus.foldl mig_session ⟨[], [], 0⟩).batch.length
      = migratableCount corpus % 450 := by omega
  have hform : ((migrate_data corpus).commits.map List.length)
      = (List.replicate (migratableCount corpus / 450) 450
         ++ (if migratableCount corpus % 450 = 0 then []
             else [migratableCount corpus % 450])) := by
    unfold migrate_data
    by_cases hz : (corpus.foldl mig_session ⟨[], [], 0⟩).batch.length ≠ 0
    · rw [if_pos hz]
      simp only [List.map_append, List.map_cons, List.map_nil]
      rw [hrep, hk, hbl, if_neg (by omega)]
    · rw [if_neg hz]
      push_neg at hz
      rw [hrep, hk, if_pos (by omega), List.append_nil]
  have hmig' : (migrate_data corpus).migrated = migratableCount corpus := by
    unfold migrate_data
    by_cases hz : (corpus.foldl mig_session ⟨[], [], 0⟩).batch.length ≠ 0
    · rw [if_pos hz]
      exact hmig
    · rw [if_neg hz]
      exact hmig
  refine ⟨hmig', hform, ?_, ?_, ?_⟩
  · intro c hcm
    have hmem : c.length ∈ (migrate_data corpus).commits.map List.length :=
      List.mem_map.mpr ⟨c, hcm, rfl⟩
    rw [hform] at hmem
    rcases List.mem_append.mp hmem with hmem | hmem
    · rw [List.eq_of_mem_replicate hmem]
    · rcases Nat.eq_zero_or_pos (migratableCount corpus % 450) with hz | hz
      · rw [if_pos hz] at hmem
        simp at hmem
      · rw [if_neg (by omega)] at hmem
        simp only [List.mem_singleton] at hmem
        rw [hmem]
        have := Nat.mod_lt (migratableCount corpus) (show 0 < 450 by norm_num)
        omega
  · rw [hform, List.sum_append, List.sum_replicate, smul_eq_mul]
    rcases Nat.eq_zero_or_pos (migratableCount corpus % 450) with hz | hz
    · rw [if_pos hz, List.sum_nil]
      have := Nat.div_add_mod (migratableCount corpus) 450
      omega
    · rw [if_neg (by omega), List.sum_cons, List.sum_nil]
      have := Nat.div_add_mod (migratableCount corpus) 450
      omega
  · intro h451
    rw [hform, h451]
    norm_num

set_option maxRecDepth 4000 in
/-- Witness for C8 on a corpus holding one session with 451 result records: exactly
two commits, of 450 and 1 operations. -/
theorem C8_migration_batches_witness :
    (migrate_data [⟨"a1", some "u1", List.replicate 451 ⟨"q1", none, none, none, [], []⟩⟩]).commits.map
        List.length = [450, 1] :=
  (C8_migration_batches
    [⟨"a1", some "u1", List.replicate 451 ⟨"q1", none, none, none, [], []⟩⟩]).2.2.2.2
    (by simp [migratableCount, hasUserId, List.length_replicate])

/-! #### C9: the Summary Reader's aggregates -/

theorem foldl_min_le {α : Type} [LinearOrder α] (xs : List α) :
    ∀ x : α, xs.foldl min x ≤ x ∧ ∀ y ∈ xs, xs.foldl min x ≤ y := by
  induction xs with
  | nil => intro x; exact ⟨le_refl x, by simp⟩
  | cons a rest ih =>
      intro x
      have h := ih (min x a)
      refine ⟨le_trans h.1 (min_le_left x a), ?_⟩
      intro y hy
      rcases List.mem_cons.mp hy with rfl | hy
      · exact le_trans h.1 (min_le_right x y)
      · exact h.2 y hy

theorem foldl_min_mem {α : Type} [LinearOrder α] (xs : List α) :
    ∀ x : α, xs.foldl min x = x ∨ xs.foldl min x ∈ xs := by
  induction xs with
  | nil => intro x; left; rfl
  | cons a rest ih =>
      intro x
      rw [List.foldl_cons]
      rcases ih (min x a) with h | h
      · rw [h]
        rcases min_choice x a with h2 | h2
        · left; exact h2
        · right; rw [h2]; exact List.mem_cons_self a rest
      · right; exact List.mem_cons_of_mem a h

theorem foldl_max_le {α : Type} [LinearOrder α] (xs : List α) :
    ∀ x : α, x ≤ xs.foldl max x ∧ ∀ y ∈ xs, y ≤ xs.foldl max x := by
  induction xs with
  | nil => intro x; exact ⟨le_refl x, by simp⟩
  | cons a rest ih =>
      intro x
      have h := ih (max x a)
      refine ⟨le_trans (le_max_left x a) h.1, ?_⟩
      intro y hy
      rcases List.mem_cons.mp hy with rfl | hy
      · exact le_trans (le_max_right x y) h.1
      · exact h.2 y hy

theorem foldl_max_mem {α : Type} [LinearOrder α] (xs : List α) :
    ∀ x : α, xs.foldl max x = x ∨ xs.foldl max x ∈ xs := by
  induction xs with
  | nil => intro x; left; rfl
  | cons a rest ih =>
      intro x
      rw [List.foldl_cons]
      rcases ih (max x a) with h | h
      · rw [h]
        rcases max_choice x a with h2 | h2
        · left; exact h2
        · right; rw [h2]; exact List.mem_cons_self a rest
      · right; exact List.mem_cons_of_mem a h

theorem pyMinString_none_iff (l : List String) : pyMinString l = none ↔ l = [] := by
  cases l <;> simp [pyMinString]

theorem pyMinString_spec {l : List String} {m : String} (h : pyMinString l = some m) :
    m ∈ l ∧ ∀ x ∈ l, m ≤ x := by
  cases l with
  | nil => simp [pyMinString] at h
  | cons a rest =>
      simp only [pyMinString, Option.some.injEq] at h
      subst h
      constructor
      · rcases foldl_min_mem rest a with h | h
        · rw [h]; exact List.mem_cons_self a rest
        · exact List.mem_cons_of_mem a h
      · intro x hx
        rcases List.mem_cons.mp hx with rfl | hx
        · exact (foldl_min_le rest x).1
        · exact (foldl_min_le rest a).2 x hx

theorem pyMaxString_none_iff (l : List String) : pyMaxString l = none ↔ l = [] := by
  cases l <;> simp [pyMaxString]

theorem pyMaxString_spec {l : List String} {m : String} (h : pyMaxString l = some m) :
    m ∈ l ∧ ∀ x ∈ l, x ≤ m := by
  cases l with
  | nil => simp [pyMaxString] at h
  | cons a rest =>
      simp only [pyMaxString, Option.some.injEq] at h
      subst h
      constructor
      · rcases foldl_max_mem rest a with h | h
        · rw [h]; exact List.mem_cons_self a rest
        · exact List.mem_cons_of_mem a h
      · intro x hx
        rcases List.mem_cons.mp hx with rfl | hx
        · exact (foldl_max_le rest x).1
        · exact (foldl_max_le rest a).2 x hx

/-- C9: the Summary Reader (store available) returns `none` exactly when no flattened
items match the `(user, session)` pair; otherwise `total_questions` and
`completed_questions` both equal the item count, `overall_score` is the mean of the
`overall` metrics of the items where that metric is present (`none` when no item has
it), `start_time` is the minimum recorded (truthy) start time and `end_time` the
maximum recorded end time (`none` when none is recorded), and `status` is
`"completed"` iff the item count is 3 and `"in_progress"` otherwise. -/
theorem C9_summary_aggregates (items : List FlatItem) (u a : String) :
    (get_assessment_summary true items u a = none ↔ get_assessment_items items u a = []) ∧
    (∀ smry, get_assessment_summary true items u a = some smry →
      smry.total_questions = (get_assessment_items items u a).length ∧
      smry.completed_questions = (get_assessment_items items u a).length ∧
      (smry.overall_score = none ↔
        (get_assessment_items items u a).filterMap (fun it => it.overall) = []) ∧
      (∀ q, smry.overall_score = some q →
        ((get_assessment_items items u a).filterMap (fun it => it.overall)) ≠ [] ∧
        q * (((get_assessment_items items u a).filterMap (fun it => it.overall)).length : ℚ)
          = ((get_assessment_items items u a).filterMap (fun it => it.overall)).sum) ∧
      (∀ t, smry.start_time = some t →
        t ∈ (get_assessment_items items u a).filterMap (fun it => truthyStr it.start_time) ∧
        ∀ x ∈ (get_assessment_items items u a).filterMap (fun it => truthyStr it.start_time),
          t ≤ x) ∧
      (smry.start_time = none ↔
        (get_assessment_items items u a).filterMap (fun it => truthyStr it.start_time) = []) ∧
      (∀ t, smry.end_time = some t →
        t ∈ (get_assessment_items items u a).filterMap (fun it => truthyStr it.end_time) ∧
        ∀ x ∈ (get_assessment_items items u a).filterMap (fun it => truthyStr it.end_time),
          x ≤ t) ∧
      (smry.end_time = none ↔
        (get_assessment_items items u a).filterMap (fun it => truthyStr it.end_time) = []) ∧
      smry.status = (if (get_assessment_items items u a).length = 3 then "completed"
                     else "in_progress")) := by
  unfold get_assessment_summary
  simp only [show (true = false) = False by simp, if_false]
  by_cases hemp : (get_assessment_items items u a).isEmpty
  · rw [if_pos hemp]
    refine ⟨by simpa [List.isEmpty_iff] using hemp, ?_⟩
    intro smry h
    exact absurd h (by simp)
  · rw [if_neg hemp]
    refine ⟨by simpa [List.isEmpty_iff] using hemp, ?_⟩
    intro smry h
    simp only [Option.some.injEq] at h
    subst h
    refine ⟨rfl, rfl, ?_, ?_, ?_, ?_, ?_, ?_, rfl⟩
    · by_cases hsc : ((get_assessment_items items u a).filterMap (fun it => it.overall)).isEmpty
      · rw [if_pos hsc]
        simpa [List.isEmpty_iff] using hsc
      · rw [if_neg hsc]
        simp only [List.isEmpty_iff] at hsc
        simpa using hsc
    · intro q hq
      by_cases hsc : ((get_assessment_items items u a).filterMap (fun it => it.overall)).isEmpty
      · rw [if_pos hsc] at hq
        exact absurd hq (by simp)
      · rw [if_neg hsc] at hq
        simp only [Option.some.injEq] at hq
        simp only [List.isEmpty_iff] at hsc
        refine ⟨hsc, ?_⟩
        rw [← hq]
        have hlen : (((get_assessment_items items u a).filterMap
            (fun it => it.overall)).length : ℚ) ≠ 0 := by
          simpa [List.length_eq_zero] using hsc
        field_simp
    · intro t ht
      exact pyMinString_spec ht
    · exact pyMinString_none_iff _
    · intro t ht
      exact pyMaxString_spec ht
    · exact pyMaxString_none_iff _

/-- Witness for C9 on a one-item store: the summary has both counts 1, no overall
score, and status `"in_progress"`. -/
theorem C9_summary_aggregates_witness :
    c9smry.total_questions = (get_assessment_items c9items "u1" "a1").length ∧
    c9smry.status = (if (get_assessment_items c9items "u1" "a1").length = 3
                     then "completed" else "in_progress") := by
  have h := (C9_summary_aggregates c9items "u1" "a1").2 c9smry rfl
  exact ⟨h.1, h.2.2.2.2.2.2.2.2⟩

/-- C10: the datetime-conversion helper `convert_firestore_datetime` is idempotent — on
every value built from dictionaries, lists, datetime-like objects and other scalars,
applying it twice yields the same result as applying it once — and its output contains
no value with an `isoformat` attribute. -/
theorem C10_convert_datetime_idempotent (v : PyVal) :
    convert_firestore_datetime (convert_firestore_datetime v) = convert_firestore_datetime v ∧
    contains_isoformat (convert_firestore_datetime v) = false :=
  ⟨convert_fd_idem v, convert_fd_noiso v⟩

end AVAS
